import Mathlib

/-!
Verification development for the RemoteView repository (a host/client
screen-sharing and remote-input tool).  The definitions below are shallow
embeddings of the Python sources in `src/remote_gui/`:

* `config.py` — the numeric constants.
* `host_logic.py` — the accept loop (`start_host_server`), the screen-send
  loop (`send_screen_data`) and the input-receive loop (`receive_input_data`).
* `client_logic.py` — the screen-receive loop (`receive_screen_data`),
  the command sender (`send_input_command`), coordinate mapping
  (`get_scaled_coords`) and key-name normalization
  (`on_key_press` / `on_key_release`).

Conventions of the embedding:

* A byte is a `Nat`; a TCP byte stream as seen by a receiver is a
  `List (List Nat)`: the list of data segments successive `socket.recv`
  calls can pull.  `recv n` returns up to `n` bytes from the front segment
  (a real `recv` returns at least one byte of the pending segment and at
  most `n`); an exhausted stream makes `recv` return `[]`, which the Python
  code treats as the peer having closed the connection.
* Python exceptions that the loops catch are modelled as explicit events
  delivered to a per-iteration step function; each step function returns
  the updated flag state plus whether the loop keeps running, mirroring the
  `try/except` structure of the loop body.
* Python float arithmetic in the scaling code is modelled over `ℚ`
  (exact real arithmetic); `int(...)` is `truncQ`, truncation toward zero.
-/

namespace RemoteView

/-- config.py: the port the host listens on. -/
def HOST_PORT : Nat := 12345

/-- config.py: maximum size for socket data packets, in bytes. -/
def MAX_PACKET_SIZE : Nat := 65536

/-- config.py: JPEG compression quality for screen sharing. -/
def JPEG_QUALITY : Nat := 70

/-- One `conn.recv(n)` call on a stream of pending segments: it returns up
to `n` bytes taken from the front segment, leaving the rest of that segment
(if any) at the front of the stream.  An empty result models the peer
having closed the connection (or no data ever arriving again). -/
def recv (n : Nat) (s : List (List Nat)) : List Nat × List (List Nat) :=
  match s with
  | [] => ([], [])
  | c :: rest => (c.take n, if c.drop n = [] then rest else c.drop n :: rest)

/-- `int.from_bytes(bs, byteorder = big)` on an arbitrary-length byte string. -/
def fromBytesBE (bs : List Nat) : Nat :=
  bs.foldl (fun acc b => acc * 256 + b) 0

/-- `n.to_bytes(4, byteorder = big)` for `n < 2 ^ 32`. -/
def toBytesBE4 (n : Nat) : List Nat :=
  [n / 16777216 % 256, n / 65536 % 256, n / 256 % 256, n % 256]

/-- The two `sendall` calls of `send_screen_data` / `send_input_command`:
the bytes put on the wire are a 4-byte big-endian length header followed
by the payload. -/
def sendMessage (payload : List Nat) : List Nat :=
  toBytesBE4 payload.length ++ payload

/-- The payload-accumulation loop shared by `receive_input_data`
(host_logic.py lines 145-151) and `receive_screen_data` (client_logic.py
lines 77-82):

    while len(acc) < need:
        packet = conn.recv(min(need - len(acc), MAX_PACKET_SIZE))
        if not packet: break
        acc += packet

Besides the accumulated bytes and the remaining stream it also records the
size requested by every `recv` call, so that the bounded-chunk-size claim
can be stated.  `fuel` bounds the number of iterations; since every
continuing iteration adds at least one byte, `fuel := need` is exact. -/
def recvLoop : Nat → Nat → List Nat → List (List Nat) → List Nat × List Nat × List (List Nat)
  | 0, _, acc, s => (acc, [], s)
  | fuel + 1, need, acc, s =>
    if acc.length < need then
      let req := min (need - acc.length) MAX_PACKET_SIZE
      let p := recv req s
      if p.1 = [] then (acc, [req], p.2)
      else
        let rest := recvLoop fuel need (acc ++ p.1) p.2
        (rest.1, req :: rest.2.1, rest.2.2)
    else (acc, [], s)

/-- Result of one pass through the framing part of a receive-loop body. -/
inductive RecvOutcome where
  /-- `len_bytes` was empty: the loop breaks (connection closed). -/
  | connClosed : RecvOutcome
  /-- fewer payload bytes than declared arrived: the message is dropped
  and the loop continues. -/
  | incomplete (declared : Nat) (got : List Nat) : RecvOutcome
  /-- a complete message. -/
  | msg (payload : List Nat) : RecvOutcome
deriving DecidableEq, Repr

/-- The framing part of one receive-loop iteration, identical in
`receive_input_data` (host_logic.py lines 138-155) and
`receive_screen_data` (client_logic.py lines 70-86):

    len_bytes = conn.recv(4)
    if not len_bytes: break
    n = int.from_bytes(len_bytes, big)
    ... accumulation loop ...
    if len(data) != n: continue

Note the header is obtained by a single `recv(4)` call: whatever nonempty
byte string that call returns is passed to `int.from_bytes`. -/
def receiveMessage (s : List (List Nat)) : RecvOutcome × List (List Nat) :=
  let h := recv 4 s
  if h.1 = [] then (RecvOutcome.connClosed, h.2)
  else
    let n := fromBytesBE h.1
    let r := recvLoop n n [] h.2
    if r.1.length ≠ n then (RecvOutcome.incomplete n r.1, r.2.2)
    else (RecvOutcome.msg r.1, r.2.2)

/-- The two shared activity flags on the application instance,
`app_instance.screen_sharing_active` and `app_instance.input_control_active`. -/
structure AppFlags where
  screen_sharing_active : Bool
  input_control_active : Bool
deriving DecidableEq, Repr

/-- A JSON scalar value as it appears in a decoded input-command record.
The claims never depend on float semantics, so numbers are carried as
integers or strings; the dispatch code only inspects presence and string
equality of values, never arithmetic on them. -/
inductive FVal where
  | vint (n : Int) : FVal
  | vstr (s : String) : FVal
  | vbool (b : Bool) : FVal
deriving DecidableEq, Repr

/-- A decoded JSON object: field names with their values (Python dict keys
are unique; lookup is by name). -/
abbrev Record := List (String × FVal)

/-- Python truthiness of a JSON scalar, as used by `if pressed:`. -/
def truthy : FVal → Bool
  | FVal.vbool b => b
  | FVal.vint n => if n = 0 then false else true
  | FVal.vstr s => if s = "" then false else true

/-- An OS-level input action performed through pynput by
`receive_input_data`; values are carried as extracted from the record. -/
inductive Injected where
  | move (x y : FVal) : Injected
  | click (x y : FVal) (button : String) (pressed : Bool) : Injected
  | keyAction (name : FVal) (pressed : Bool) : Injected
  | scroll (dx dy : FVal) : Injected
deriving DecidableEq, Repr

/-- The command-dispatch part of the `receive_input_data` loop body
(host_logic.py lines 158-193), applied to a successfully JSON-decoded
record.  `input_command.get` is a total lookup; the subscript accesses
`input_command[...]` raise `KeyError` when the field is missing, which the
enclosing generic `except Exception` handler turns into clearing both
flags and breaking out of the loop (lines 202-206).  The result is the
updated flags, whether the loop keeps running, and the injected action if
any. -/
def processCommand (st : AppFlags) (r : Record) : AppFlags × Bool × Option Injected :=
  let t := r.lookup ("type")
  if t = some (FVal.vstr ("mouse_move")) then
    match r.lookup ("x"), r.lookup ("y") with
    | some x, some y => (st, true, some (Injected.move x y))
    | _, _ => (⟨false, false⟩, false, none)
  else if t = some (FVal.vstr ("mouse_click")) then
    match r.lookup ("x"), r.lookup ("y"), r.lookup ("button"), r.lookup ("pressed") with
    | some x, some y, some b, some p =>
      (st, true, some (Injected.click x y
        (if b = FVal.vstr ("left") then ("left") else ("right")) (truthy p)))
    | _, _, _, _ => (⟨false, false⟩, false, none)
  else if t = some (FVal.vstr ("key_event")) then
    match r.lookup ("key"), r.lookup ("pressed") with
    | some k, some p => (st, true, some (Injected.keyAction k (truthy p)))
    | _, _ => (⟨false, false⟩, false, none)
  else if t = some (FVal.vstr ("scroll")) then
    match r.lookup ("dx"), r.lookup ("dy") with
    | some dx, some dy => (st, true, some (Injected.scroll dx dy))
    | _, _ => (⟨false, false⟩, false, none)
  else (st, true, none)

/-- What one iteration of the `receive_input_data` loop runs into, after
the framing layer: the connection yielded no header (`eof`), a
`ConnectionResetError` was raised, some other exception was raised
(e.g. a broken pipe `OSError`), the payload was shorter than declared,
the payload was not valid JSON, or a record was decoded. -/
inductive HostRecvEvent where
  | eof : HostRecvEvent
  | connReset : HostRecvEvent
  | otherError : HostRecvEvent
  | incompleteMsg : HostRecvEvent
  | jsonMalformed : HostRecvEvent
  | message (r : Record) : HostRecvEvent

/-- One iteration of the `receive_input_data` loop (host_logic.py lines
136-206): check `input_control_active`; on eof break with flags unchanged;
on `ConnectionResetError` or any other exception clear both flags and
break; on an incomplete payload `continue`; on `json.JSONDecodeError` log
and `continue`; on a decoded record dispatch via `processCommand`. -/
def receive_input_data_step (st : AppFlags) (e : HostRecvEvent) :
    AppFlags × Bool × Option Injected :=
  if st.input_control_active = false then (st, false, none)
  else
    match e with
    | HostRecvEvent.eof => (st, false, none)
    | HostRecvEvent.connReset => (⟨false, false⟩, false, none)
    | HostRecvEvent.otherError => (⟨false, false⟩, false, none)
    | HostRecvEvent.incompleteMsg => (st, true, none)
    | HostRecvEvent.jsonMalformed => (st, true, none)
    | HostRecvEvent.message r => processCommand st r

/-- What one iteration of the `send_screen_data` loop runs into: the
capture/encode/send sequence succeeded, the capture or encode raised, the
send raised `ConnectionResetError`, or the send raised some other
exception (e.g. a broken pipe). -/
inductive ScreenSendEvent where
  | sentOk : ScreenSendEvent
  | captureError : ScreenSendEvent
  | connReset : ScreenSendEvent
  | otherError : ScreenSendEvent

/-- One iteration of the `send_screen_data` loop (host_logic.py lines
94-122): check `screen_sharing_active`; on success continue; on
`ConnectionResetError` or any other exception (capture failures included)
clear both flags and break. -/
def send_screen_data_step (st : AppFlags) (e : ScreenSendEvent) : AppFlags × Bool :=
  if st.screen_sharing_active = false then (st, false)
  else
    match e with
    | ScreenSendEvent.sentOk => (st, true)
    | ScreenSendEvent.captureError => (⟨false, false⟩, false)
    | ScreenSendEvent.connReset => (⟨false, false⟩, false)
    | ScreenSendEvent.otherError => (⟨false, false⟩, false)

/-- What one iteration of the client `receive_screen_data` loop runs into
after the framing layer. -/
inductive ScreenRecvEvent where
  | eof : ScreenRecvEvent
  | connReset : ScreenRecvEvent
  | otherError : ScreenRecvEvent
  | incompleteMsg : ScreenRecvEvent
  | frame : ScreenRecvEvent

/-- One iteration of the client `receive_screen_data` loop
(client_logic.py lines 68-128): check `screen_sharing_active`; on eof
break with flags unchanged; on an incomplete payload `continue`; on
`ConnectionResetError` or any other exception clear both flags and break;
on a decoded frame display it and continue. -/
def receive_screen_data_step (st : AppFlags) (e : ScreenRecvEvent) : AppFlags × Bool :=
  if st.screen_sharing_active = false then (st, false)
  else
    match e with
    | ScreenRecvEvent.eof => (st, false)
    | ScreenRecvEvent.connReset => (⟨false, false⟩, false)
    | ScreenRecvEvent.otherError => (⟨false, false⟩, false)
    | ScreenRecvEvent.incompleteMsg => (st, true)
    | ScreenRecvEvent.frame => (st, true)

/-- Client-side state observed by `send_input_command`: the two activity
flags plus whether `app_instance.client_socket` is set (truthy). -/
structure ClientState where
  screen_sharing_active : Bool
  input_control_active : Bool
  has_socket : Bool
deriving DecidableEq, Repr

/-- Outcome of the two `sendall` calls inside `send_input_command`. -/
inductive ClientSendOutcome where
  | sendOk : ClientSendOutcome
  | connReset : ClientSendOutcome
  | otherError : ClientSendOutcome

/-- What `send_input_command` did with the command. -/
inductive SendDisposition where
  | skipped : SendDisposition
  | sent : SendDisposition
  | resetTeardown : SendDisposition
  | loggedOnly : SendDisposition
deriving DecidableEq, Repr

/-- `send_input_command` (client_logic.py lines 189-217): if
`input_control_active` is false or there is no socket, return without
sending; otherwise attempt the send; on `ConnectionResetError` clear both
activity flags (the socket reference is not touched here); on any other
exception only log; on success nothing changes. -/
def send_input_command (st : ClientState) (o : ClientSendOutcome) :
    ClientState × SendDisposition :=
  if st.input_control_active = false ∨ st.has_socket = false then (st, SendDisposition.skipped)
  else
    match o with
    | ClientSendOutcome.sendOk => (st, SendDisposition.sent)
    | ClientSendOutcome.connReset =>
      ({ st with screen_sharing_active := false, input_control_active := false },
       SendDisposition.resetTeardown)
    | ClientSendOutcome.otherError => (st, SendDisposition.loggedOnly)

/-- Modelled from the spec data model (section 3, InputCommand): whether a
decoded record parses as one of the four InputCommand variants, i.e. has a
known `type` discriminator and all the variant-specific fields present.
Used only to state claim C4, which quantifies over unparseable records. -/
def specParsesAsInputCommand (r : Record) : Bool :=
  match r.lookup ("type") with
  | some (FVal.vstr t) =>
    if t = "mouse_move" then ((r.lookup ("x")).isSome && (r.lookup ("y")).isSome)
    else if t = "mouse_click" then
      ((r.lookup ("x")).isSome && (r.lookup ("y")).isSome &&
       (r.lookup ("button")).isSome && (r.lookup ("pressed")).isSome)
    else if t = "scroll" then ((r.lookup ("dx")).isSome && (r.lookup ("dy")).isSome)
    else if t = "key_event" then
      ((r.lookup ("key")).isSome && (r.lookup ("pressed")).isSome)
    else false
  | _ => false

/-- The observable actions of one pass of the accept loop body in
`start_host_server` (host_logic.py lines 38-61), in program order for the
k-th accepted connection: accept, set both flags, start the two worker
threads, join the screen thread, join the input thread, clear both flags. -/
inductive HAct where
  | accept (k : Nat) : HAct
  | flagsOn (k : Nat) : HAct
  | startScreen (k : Nat) : HAct
  | startInput (k : Nat) : HAct
  | joinScreen (k : Nat) : HAct
  | joinInput (k : Nat) : HAct
  | flagsOff (k : Nat) : HAct
deriving DecidableEq, Repr

/-- The action sequence of the k-th iteration of the accept loop. -/
def sessionTrace (k : Nat) : List HAct :=
  [HAct.accept k, HAct.flagsOn k, HAct.startScreen k, HAct.startInput k,
   HAct.joinScreen k, HAct.joinInput k, HAct.flagsOff k]

/-- The action trace of the accept loop after `n` completed sessions: the
loop body is straight-line code, so the trace is the concatenation of the
per-session traces in order. -/
def hostTrace : Nat → List HAct
  | 0 => []
  | n + 1 => hostTrace n ++ sessionTrace n

/-- Python `int(x)` on a float: truncation toward zero, modelled on `ℚ`. -/
def truncQ (q : ℚ) : Int :=
  if 0 ≤ q then ⌊q⌋ else ⌈q⌉

/-- The render-surface size actually used by `receive_screen_data`
(client_logic.py lines 92-98): the label size, replaced by the 800 × 600
default when the label reports a dimension of 1 (not yet laid out). -/
def effSurface (labelW labelH : Nat) : Nat × Nat :=
  if labelW = 1 ∨ labelH = 1 then (800, 600) else (labelW, labelH)

/-- The display-size computation of `receive_screen_data` (client_logic.py
lines 100-111): if the decoded image exceeds the surface in either
dimension, scale it down preserving the aspect ratio `imgW / imgH`,
comparing `surfaceW / aspect` against `surfaceH`; otherwise keep the
native size.  Python float arithmetic is modelled over `ℚ`. -/
def displaySize (imgW imgH labelW labelH : Nat) : Int × Int :=
  if imgW > (effSurface labelW labelH).1 ∨ imgH > (effSurface labelW labelH).2 then
    if ((effSurface labelW labelH).1 : ℚ) / ((imgW : ℚ) / (imgH : ℚ)) ≤
        ((effSurface labelW labelH).2 : ℚ) then
      (((effSurface labelW labelH).1 : Int),
       truncQ (((effSurface labelW labelH).1 : ℚ) / ((imgW : ℚ) / (imgH : ℚ))))
    else
      (truncQ (((effSurface labelW labelH).2 : ℚ) * ((imgW : ℚ) / (imgH : ℚ))),
       ((effSurface labelW labelH).2 : Int))
  else ((imgW : Int), (imgH : Int))

/-- `get_scaled_coords` (client_logic.py lines 147-186): when no image has
been rendered yet (`remote_image_tk` is None) or the displayed image
reports a zero dimension, event coordinates pass through; otherwise
subtract the centering offsets `(label - img) / 2` and truncate to
integers.  `img` is the displayed size of the last rendered image. -/
def get_scaled_coords (img : Option (Nat × Nat)) (labelW labelH : Nat)
    (ex ey : Int) : Int × Int :=
  match img with
  | none => (ex, ey)
  | some (iw, ih) =>
    if iw = 0 ∨ ih = 0 then (ex, ey)
    else
      (truncQ ((ex : ℚ) - ((labelW : ℚ) - (iw : ℚ)) / 2),
       truncQ ((ey : ℚ) - ((labelH : ℚ) - (ih : ℚ)) / 2))

/-- The keysym-to-name mapping chain of `on_key_press` (client_logic.py
lines 245-270): a chain of equality tests; an unmatched keysym passes
through unchanged. -/
def on_key_press_name (s : String) : String :=
  if s = "Return" then "enter"
  else if s = "Escape" then "esc"
  else if s = "Prior" then "page_up"
  else if s = "Next" then "page_down"
  else if s = "Up" then "up"
  else if s = "Down" then "down"
  else if s = "Left" then "left"
  else if s = "Right" then "right"
  else if s = "Control_L" then "ctrl_l"
  else if s = "Control_R" then "ctrl_r"
  else if s = "Alt_L" then "alt_l"
  else if s = "Alt_R" then "alt_r"
  else if s = "Shift_L" then "shift_l"
  else if s = "Shift_R" then "shift_r"
  else if s = "BackSpace" then "backspace"
  else if s = "Delete" then "delete"
  else if s = "Tab" then "tab"
  else if s = "space" then "space"
  else if s = "Caps_Lock" then "caps_lock"
  else s

/-- The keysym-to-name mapping chain of `on_key_release` (client_logic.py
lines 274-299), written out separately in the source. -/
def on_key_release_name (s : String) : String :=
  if s = "Return" then "enter"
  else if s = "Escape" then "esc"
  else if s = "Prior" then "page_up"
  else if s = "Next" then "page_down"
  else if s = "Up" then "up"
  else if s = "Down" then "down"
  else if s = "Left" then "left"
  else if s = "Right" then "right"
  else if s = "Control_L" then "ctrl_l"
  else if s = "Control_R" then "ctrl_r"
  else if s = "Alt_L" then "alt_l"
  else if s = "Alt_R" then "alt_r"
  else if s = "Shift_L" then "shift_l"
  else if s = "Shift_R" then "shift_r"
  else if s = "BackSpace" then "backspace"
  else if s = "Delete" then "delete"
  else if s = "Tab" then "tab"
  else if s = "space" then "space"
  else if s = "Caps_Lock" then "caps_lock"
  else s

/-- The key-name table from the spec (section 6), as an association list. -/
def keyTable : List (String × String) :=
  [("Return", "enter"), ("Escape", "esc"), ("Prior", "page_up"),
   ("Next", "page_down"), ("Up", "up"), ("Down", "down"), ("Left", "left"),
   ("Right", "right"), ("Control_L", "ctrl_l"), ("Control_R", "ctrl_r"),
   ("Alt_L", "alt_l"), ("Alt_R", "alt_r"), ("Shift_L", "shift_l"),
   ("Shift_R", "shift_r"), ("BackSpace", "backspace"), ("Delete", "delete"),
   ("Tab", "tab"), ("space", "space"), ("Caps_Lock", "caps_lock")]

theorem toBytesBE4_length (n : Nat) : (toBytesBE4 n).length = 4 := rfl

theorem fromBytesBE_toBytesBE4 (n : Nat) (h : n < 4294967296) :
    fromBytesBE (toBytesBE4 n) = n := by
  simp only [fromBytesBE, toBytesBE4, List.foldl_cons, List.foldl_nil]
  omega

/-- A `recv` call conserves bytes: what it returns plus what remains is
what was pending. -/
theorem recv_join (n : Nat) (s : List (List Nat)) :
    ((recv n s).1).length + ((recv n s).2).flatten.length = s.flatten.length := by
  cases s with
  | nil => simp [recv]
  | cons c rest =>
    simp only [recv]
    split
    · next h =>
      have hd : c.length - n = 0 := by
        simpa using congrArg List.length h
      simp only [List.length_take, List.flatten_cons, List.length_append]
      omega
    · next h =>
      simp only [List.length_take, List.flatten_cons, List.length_append,
        List.length_drop]
      omega

/-- The accumulation loop cannot produce more bytes than were pending. -/
theorem recvLoop_le :
    ∀ (fuel need : Nat) (acc : List Nat) (s : List (List Nat)),
    ((recvLoop fuel need acc s).1).length ≤ acc.length + s.flatten.length := by
  intro fuel
  induction fuel with
  | zero => intro need acc s; simp [recvLoop]
  | succ fuel ih =>
    intro need acc s
    simp only [recvLoop]
    split
    · split
      · simp
      · have h := ih need (acc ++ (recv (min (need - acc.length) MAX_PACKET_SIZE) s).1)
          (recv (min (need - acc.length) MAX_PACKET_SIZE) s).2
        have hj := recv_join (min (need - acc.length) MAX_PACKET_SIZE) s
        simp only [List.length_append] at h
        dsimp only
        omega
    · simp

/-- When the bytes still pending are exactly the bytes still needed and
they sit in a single segment, the accumulation loop collects all of them. -/
theorem recvLoop_exact :
    ∀ (fuel : Nat) (acc c : List Nat) (need : Nat),
    need = acc.length + c.length → c.length ≤ fuel →
    (recvLoop fuel need acc (if c = [] then [] else [c])).1 = acc ++ c := by
  intro fuel
  induction fuel with
  | zero =>
    intro acc c need h1 h2
    have hc : c = [] := List.length_eq_zero.mp (Nat.le_zero.mp h2)
    subst hc
    simp [recvLoop]
  | succ fuel ih =>
    intro acc c need h1 h2
    by_cases hc : c = []
    · subst hc
      simp only [if_pos rfl, recvLoop, List.length_nil, Nat.add_zero] at h1 ⊢
      rw [if_neg (by omega)]
      simp
    · rw [if_neg hc]
      have hcl : 0 < c.length := List.length_pos.mpr hc
      simp only [recvLoop]
      rw [if_pos (by omega)]
      have hreq : 0 < min (need - acc.length) MAX_PACKET_SIZE := by
        simp only [MAX_PACKET_SIZE]
        omega
      have htk : (recv (min (need - acc.length) MAX_PACKET_SIZE) [c]).1 =
          c.take (min (need - acc.length) MAX_PACKET_SIZE) := rfl
      have hne : (recv (min (need - acc.length) MAX_PACKET_SIZE) [c]).1 ≠ [] := by
        rw [htk]
        simp only [ne_eq, List.take_eq_nil_iff]
        push_neg
        exact ⟨by omega, hc⟩
      rw [if_neg hne]
      have hdr : (recv (min (need - acc.length) MAX_PACKET_SIZE) [c]).2 =
          (if c.drop (min (need - acc.length) MAX_PACKET_SIZE) = [] then []
           else [c.drop (min (need - acc.length) MAX_PACKET_SIZE)]) := by
        simp only [recv]
      rw [htk, hdr]
      have := ih (acc ++ c.take (min (need - acc.length) MAX_PACKET_SIZE))
        (c.drop (min (need - acc.length) MAX_PACKET_SIZE)) need
        (by
          simp only [List.length_append, List.length_take, List.length_drop]
          omega)
        (by
          simp only [List.length_drop]
          omega)
      rw [this, List.append_assoc, List.take_append_drop]

/-- A returned complete message has exactly the declared length: the
`if len(data) != n: continue` guard makes the `msg` outcome carry `n`
bytes. -/
theorem receiveMessage_msg_length (chunks : List (List Nat)) (payload : List Nat)
    (h : (receiveMessage chunks).1 = RecvOutcome.msg payload) :
    payload.length = fromBytesBE (recv 4 chunks).1 := by
  simp only [receiveMessage] at h
  split_ifs at h with h1 h2
  dsimp only at h
  rw [RecvOutcome.msg.injEq] at h
  rw [← h]
  exact not_ne_iff.mp h2

/-- Every request size recorded by the accumulation loop is at most
`MAX_PACKET_SIZE`. -/
theorem recvLoop_req_le :
    ∀ (fuel need : Nat) (acc : List Nat) (s : List (List Nat)) (q : Nat),
    q ∈ (recvLoop fuel need acc s).2.1 → q ≤ MAX_PACKET_SIZE := by
  intro fuel
  induction fuel with
  | zero => intro need acc s q hq; simp [recvLoop] at hq
  | succ fuel ih =>
    intro need acc s q hq
    simp only [recvLoop] at hq
    split_ifs at hq with h1 h2
    · simp only [List.mem_singleton] at hq
      subst hq
      exact min_le_right _ _
    · simp only [List.mem_cons] at hq
      rcases hq with hq | hq
      · subst hq; exact min_le_right _ _
      · exact ih need _ _ q hq
    · simp at hq

/-- Claim C1 (framing round-trip): for every payload of length at most
10,000,000, writing the 4-byte big-endian length header followed by the
payload and then running the receive procedure on the resulting byte
stream yields back exactly the original payload. -/
theorem framing_round_trip (payload : List Nat) (h : payload.length ≤ 10000000) :
    (receiveMessage [sendMessage payload]).1 = RecvOutcome.msg payload := by
  have hlt : payload.length < 4294967296 := by omega
  have htake : (toBytesBE4 payload.length ++ payload).take 4 = toBytesBE4 payload.length :=
    List.take_left' (toBytesBE4_length _)
  have hdrop : (toBytesBE4 payload.length ++ payload).drop 4 = payload :=
    List.drop_left' (toBytesBE4_length _)
  have hne : toBytesBE4 payload.length ≠ [] := by simp [toBytesBE4]
  simp only [receiveMessage, sendMessage, recv, htake, hdrop]
  rw [if_neg hne, fromBytesBE_toBytesBE4 _ hlt]
  have hx := recvLoop_exact payload.length [] payload payload.length (by simp) (le_refl _)
  simp only [List.nil_append] at hx
  simp only [hx]
  simp

/-- Witness for C1 at a concrete payload. -/
theorem framing_round_trip_witness :
    (receiveMessage [sendMessage [7, 8, 9]]).1 = RecvOutcome.msg [7, 8, 9] :=
  framing_round_trip [7, 8, 9] (by decide)

/-- Claim C2, as stated, is false: the receive procedure does NOT block
until exactly 4 header bytes have been read.  The header is obtained by a
single `conn.recv(4)` call (host_logic.py line 139, client_logic.py line
71); when the stream delivers fewer than 4 bytes in that call, the short
byte string is interpreted as the length.  Concretely, on a stream whose
first segment holds only the two bytes `[0, 0]`, the header read returns 2
bytes, not 4. -/
theorem header_read_exactness_counterexample :
    ¬ (∀ chunks : List (List Nat), (recv 4 chunks).1 ≠ [] →
        ((recv 4 chunks).1).length = 4) := by
  intro hcl
  exact absurd (hcl [[0, 0]] (by decide)) (by decide)

/-- Claim C2 (amended): the header read is a single call requesting 4
bytes, so it returns at most 4 bytes, and exactly the first 4 bytes of the
stream whenever at least 4 bytes are pending in the first segment; the
payload is accumulated across partial reads with every single read call
requesting at most `MAX_PACKET_SIZE` (65536) bytes; and a message is only
returned once exactly the declared number of payload bytes has been
accumulated. -/
theorem header_and_payload_read_amended :
    (∀ chunks : List (List Nat), ((recv 4 chunks).1).length ≤ 4)
    ∧ (∀ (c : List Nat) (rest : List (List Nat)), 4 ≤ c.length →
        (recv 4 (c :: rest)).1 = ((c :: rest).flatten).take 4)
    ∧ (∀ (fuel need : Nat) (acc : List Nat) (s : List (List Nat)),
        ∀ q ∈ (recvLoop fuel need acc s).2.1, q ≤ MAX_PACKET_SIZE)
    ∧ (∀ (chunks : List (List Nat)) (payload : List Nat),
        (receiveMessage chunks).1 = RecvOutcome.msg payload →
        payload.length = fromBytesBE (recv 4 chunks).1) := by
  refine ⟨?_, ?_, ?_, ?_⟩
  · intro chunks
    cases chunks with
    | nil => simp [recv]
    | cons c rest => simp [recv, List.length_take]
  · intro c rest h
    simp only [recv, List.flatten_cons]
    rw [List.take_append_of_le_length h]
  · intro fuel need acc s q hq
    exact recvLoop_req_le fuel need acc s q hq
  · intro chunks payload h
    exact receiveMessage_msg_length chunks payload h

/-- Witness for the amended C2 at a concrete stream. -/
theorem header_and_payload_read_amended_witness :
    (recv 4 [[1, 2, 3, 4, 5], [6]]).1 =
      (([[1, 2, 3, 4, 5], [6]] : List (List Nat)).flatten).take 4 :=
  header_and_payload_read_amended.2.1 [1, 2, 3, 4, 5] [[6]] (by decide)

/-- Claim C3 (truncation safety): a complete message always carries
exactly the declared number of bytes; when fewer payload bytes than
declared can ever arrive, the outcome is never a complete message; and on
an incomplete message both receive loops continue to the next iteration
with the flags unchanged and nothing processed. -/
theorem truncation_safety :
    (∀ (chunks : List (List Nat)) (payload : List Nat),
        (receiveMessage chunks).1 = RecvOutcome.msg payload →
        payload.length = fromBytesBE (recv 4 chunks).1)
    ∧ (∀ chunks : List (List Nat), (recv 4 chunks).1 ≠ [] →
        ((recv 4 chunks).2).flatten.length < fromBytesBE (recv 4 chunks).1 →
        ∀ payload : List Nat, (receiveMessage chunks).1 ≠ RecvOutcome.msg payload)
    ∧ (∀ sh : Bool, receive_input_data_step ⟨sh, true⟩ HostRecvEvent.incompleteMsg
        = (⟨sh, true⟩, true, none))
    ∧ (∀ inp : Bool, receive_screen_data_step ⟨true, inp⟩ ScreenRecvEvent.incompleteMsg
        = (⟨true, inp⟩, true)) := by
  refine ⟨fun chunks payload h => receiveMessage_msg_length chunks payload h,
    ?_, by decide, by decide⟩
  intro chunks h1 h2 payload hmsg
  have hle := recvLoop_le (fromBytesBE (recv 4 chunks).1) (fromBytesBE (recv 4 chunks).1)
    [] (recv 4 chunks).2
  simp only [List.length_nil, Nat.zero_add] at hle
  simp only [receiveMessage] at hmsg
  split_ifs at hmsg with hc hlen
  rw [not_ne_iff] at hlen
  omega

/-- Witness for C3: a declared length of 5 with only 2 payload bytes
delivered is never returned as a complete message. -/
theorem truncation_safety_witness :
    (receiveMessage [[0, 0, 0, 5], [1, 2]]).1 ≠ RecvOutcome.msg [1, 2] :=
  truncation_safety.2.1 [[0, 0, 0, 5], [1, 2]] (by decide) (by decide) [1, 2]

/-- Claim C4, as stated, is false: not every unparseable message is
non-fatal.  A record that is valid JSON with a known `type` but a missing
required field (here `{"type": "mouse_move"}` without `x`/`y`) raises
`KeyError` at the field subscript, which the generic `except Exception`
handler treats as fatal: both flags are cleared and the loop exits,
instead of leaving `input_control_active` true and continuing. -/
theorem malformed_command_tolerance_counterexample :
    ¬ (∀ r : Record, specParsesAsInputCommand r = false →
        ∀ sh : Bool, receive_input_data_step ⟨sh, true⟩ (HostRecvEvent.message r)
          = (⟨sh, true⟩, true, none)) := by
  intro hcl
  exact absurd (hcl [(("type"), FVal.vstr ("mouse_move"))] (by decide) true) (by decide)

/-- Claim C4 (amended): syntactically invalid JSON and records whose
`type` discriminator is missing or unknown are non-fatal — the loop logs
and continues with both flags unchanged and nothing injected — and
subsequent valid commands are still processed.  However, a record with a
known `type` but a missing required field raises an error handled as
fatal: both flags are cleared and the loop exits. -/
theorem malformed_command_tolerance_amended :
    (∀ sh : Bool, receive_input_data_step ⟨sh, true⟩ HostRecvEvent.jsonMalformed
      = (⟨sh, true⟩, true, none))
    ∧ (∀ (sh : Bool) (r : Record),
        (∀ v : FVal, r.lookup ("type") = some v →
          v ≠ FVal.vstr ("mouse_move") ∧ v ≠ FVal.vstr ("mouse_click") ∧
          v ≠ FVal.vstr ("key_event") ∧ v ≠ FVal.vstr ("scroll")) →
        receive_input_data_step ⟨sh, true⟩ (HostRecvEvent.message r)
          = (⟨sh, true⟩, true, none))
    ∧ (∀ (sh : Bool) (x y : Int),
        receive_input_data_step ⟨sh, true⟩ (HostRecvEvent.message
          [(("type"), FVal.vstr ("mouse_move")), (("x"), FVal.vint x), (("y"), FVal.vint y)])
          = (⟨sh, true⟩, true, some (Injected.move (FVal.vint x) (FVal.vint y))))
    ∧ (receive_input_data_step ⟨true, true⟩ (HostRecvEvent.message
          [(("type"), FVal.vstr ("mouse_move"))]) = (⟨false, false⟩, false, none)) := by
  refine ⟨by decide, ?_, ?_, by decide⟩
  · intro sh r hr
    have hstep : receive_input_data_step ⟨sh, true⟩ (HostRecvEvent.message r)
        = processCommand ⟨sh, true⟩ r := by
      simp [receive_input_data_step]
    rw [hstep]
    cases hl : r.lookup ("type") with
    | none => simp [processCommand, hl]
    | some v =>
      obtain ⟨n1, n2, n3, n4⟩ := hr v hl
      simp [processCommand, hl, n1, n2, n3, n4]
  · intro sh x y
    rfl

/-- Witness for the amended C4: a record with an unknown type is non-fatal. -/
theorem malformed_command_tolerance_witness :
    receive_input_data_step ⟨true, true⟩
      (HostRecvEvent.message [(("type"), FVal.vstr ("wheel"))])
      = (⟨true, true⟩, true, none) :=
  malformed_command_tolerance_amended.2.1 true [(("type"), FVal.vstr ("wheel"))]
    (by
      intro v hv
      injection hv with h
      subst h
      decide)

/-- Claim C5 (whole-session teardown on fatal errors): in the screen-send
loop a connection reset, a capture/encode error, or any other exception
clears both activity flags and exits the loop; in the input-receive loop a
connection reset or any other transport exception likewise clears both
flags and exits, so a failure in one direction tears down both directions
of the session. -/
theorem whole_session_teardown :
    (∀ inp : Bool, send_screen_data_step ⟨true, inp⟩ ScreenSendEvent.connReset
      = (⟨false, false⟩, false))
    ∧ (∀ inp : Bool, send_screen_data_step ⟨true, inp⟩ ScreenSendEvent.captureError
      = (⟨false, false⟩, false))
    ∧ (∀ inp : Bool, send_screen_data_step ⟨true, inp⟩ ScreenSendEvent.otherError
      = (⟨false, false⟩, false))
    ∧ (∀ sh : Bool, receive_input_data_step ⟨sh, true⟩ HostRecvEvent.connReset
      = (⟨false, false⟩, false, none))
    ∧ (∀ sh : Bool, receive_input_data_step ⟨sh, true⟩ HostRecvEvent.otherError
      = (⟨false, false⟩, false, none)) := by
  decide

/-- Claim C10 (client send-failure asymmetry): when `input_control_active`
is false or no socket exists, nothing is sent and the state is unchanged;
a `ConnectionResetError` during the send clears both activity flags (the
socket reference is untouched); any other send exception is only logged,
leaving both flags and the socket unchanged; a successful send changes
nothing. -/
theorem client_send_failure_asymmetry :
    (∀ sh so : Bool, send_input_command ⟨sh, false, so⟩ ClientSendOutcome.sendOk
      = (⟨sh, false, so⟩, SendDisposition.skipped))
    ∧ (∀ sh so : Bool, send_input_command ⟨sh, false, so⟩ ClientSendOutcome.connReset
      = (⟨sh, false, so⟩, SendDisposition.skipped))
    ∧ (∀ sh so : Bool, send_input_command ⟨sh, false, so⟩ ClientSendOutcome.otherError
      = (⟨sh, false, so⟩, SendDisposition.skipped))
    ∧ (∀ sh inp : Bool, send_input_command ⟨sh, inp, false⟩ ClientSendOutcome.sendOk
      = (⟨sh, inp, false⟩, SendDisposition.skipped))
    ∧ (∀ sh inp : Bool, send_input_command ⟨sh, inp, false⟩ ClientSendOutcome.connReset
      = (⟨sh, inp, false⟩, SendDisposition.skipped))
    ∧ (∀ sh inp : Bool, send_input_command ⟨sh, inp, false⟩ ClientSendOutcome.otherError
      = (⟨sh, inp, false⟩, SendDisposition.skipped))
    ∧ (∀ sh : Bool, send_input_command ⟨sh, true, true⟩ ClientSendOutcome.connReset
      = (⟨false, false, true⟩, SendDisposition.resetTeardown))
    ∧ (∀ sh : Bool, send_input_command ⟨sh, true, true⟩ ClientSendOutcome.otherError
      = (⟨sh, true, true⟩, SendDisposition.loggedOnly))
    ∧ (∀ sh : Bool, send_input_command ⟨sh, true, true⟩ ClientSendOutcome.sendOk
      = (⟨sh, true, true⟩, SendDisposition.sent)) := by
  decide

theorem sessionTrace_length (k : Nat) : (sessionTrace k).length = 7 := rfl

theorem hostTrace_length (n : Nat) : (hostTrace n).length = 7 * n := by
  induction n with
  | zero => rfl
  | succ n ih =>
    simp only [hostTrace, List.length_append, ih, sessionTrace_length]
    omega

/-- Position arithmetic in the accept-loop trace: the r-th action of the
k-th session sits at index `7 * k + r`. -/
theorem hostTrace_get (n k r : Nat) (hk : k < n) (hr : r < 7) :
    (hostTrace n).get? (7 * k + r) = (sessionTrace k).get? r := by
  induction n with
  | zero => omega
  | succ n ih =>
    rcases Nat.lt_succ_iff_lt_or_eq.mp hk with h | h
    · show (hostTrace n ++ sessionTrace n).get? (7 * k + r) = _
      rw [List.get?_append (by rw [hostTrace_length]; omega)]
      exact ih h
    · subst h
      show (hostTrace k ++ sessionTrace k).get? (7 * k + r) = _
      rw [List.get?_append_right (by rw [hostTrace_length]; omega)]
      rw [hostTrace_length]
      congr 1
      omega

/-- Claim C6 (serialized sessions): in the accept-loop trace, for any two
sessions `i < j`, both join actions of session i occur at positions
strictly before the accept action of session j — a later inbound
connection is not accepted until both worker threads of every earlier
session have been joined. -/
theorem serialized_sessions (n i j : Nat) (hij : i < j) (hj : j < n) :
    (hostTrace n).get? (7 * i + 4) = some (HAct.joinScreen i)
    ∧ (hostTrace n).get? (7 * i + 5) = some (HAct.joinInput i)
    ∧ (hostTrace n).get? (7 * j) = some (HAct.accept j)
    ∧ 7 * i + 4 < 7 * j ∧ 7 * i + 5 < 7 * j := by
  have hi : i < n := lt_trans hij hj
  refine ⟨?_, ?_, ?_, by omega, by omega⟩
  · rw [hostTrace_get n i 4 hi (by omega)]; rfl
  · rw [hostTrace_get n i 5 hi (by omega)]; rfl
  · have h0 := hostTrace_get n j 0 hj (by omega)
    rw [Nat.add_zero] at h0
    rw [h0]; rfl

/-- Witness for C6 with two sessions. -/
theorem serialized_sessions_witness :
    (hostTrace 2).get? 4 = some (HAct.joinScreen 0)
    ∧ (hostTrace 2).get? 5 = some (HAct.joinInput 0)
    ∧ (hostTrace 2).get? 7 = some (HAct.accept 1)
    ∧ 4 < 7 ∧ 5 < 7 := by
  have h := serialized_sessions 2 0 1 (by omega) (by omega)
  simpa using h

/-- Claim C7 (aspect-fit scaling): with the surface size replaced by
800 × 600 when a reported dimension is 1, an image exceeding the surface
in either dimension is displayed at `(sw, int(sw / aspect))` when
`sw / aspect ≤ sh` and at `(int(sh * aspect), sh)` otherwise, where
`aspect = w / h`; an image fitting in both dimensions is displayed at its
native size. -/
theorem aspect_fit_scaling (w h sw sh : Nat) (hw : 0 < w) (hh : 0 < h) :
    ((effSurface sw sh).1 < w ∨ (effSurface sw sh).2 < h →
      displaySize w h sw sh =
        if ((effSurface sw sh).1 : ℚ) / ((w : ℚ) / (h : ℚ)) ≤ ((effSurface sw sh).2 : ℚ) then
          (((effSurface sw sh).1 : Int),
           truncQ (((effSurface sw sh).1 : ℚ) / ((w : ℚ) / (h : ℚ))))
        else
          (truncQ (((effSurface sw sh).2 : ℚ) * ((w : ℚ) / (h : ℚ))),
           ((effSurface sw sh).2 : Int)))
    ∧ (w ≤ (effSurface sw sh).1 ∧ h ≤ (effSurface sw sh).2 →
      displaySize w h sw sh = ((w : Int), (h : Int))) := by
  constructor
  · intro hex
    simp only [displaySize]
    rw [if_pos hex]
  · intro hfit
    simp only [displaySize]
    rw [if_neg (by simp only [not_or, not_lt]; exact hfit)]

/-- Witness for C7: a 1000 × 500 image on an 800 × 600 surface is scaled
to 800 × 400. -/
theorem aspect_fit_scaling_witness :
    displaySize 1000 500 800 600 = (800, 400) := by
  have h := (aspect_fit_scaling 1000 500 800 600 (by omega) (by omega)).1
    (by norm_num [effSurface])
  rw [h]
  norm_num [effSurface, truncQ]

/-- Claim C8 (coordinate mapping): with no rendered image, pointer event
coordinates pass through unscaled; with a rendered image of positive
displayed size, the emitted coordinates subtract the centering offsets
`(surface - image) / 2` and truncate to integers; in particular on an
800 × 600 surface with a 400 × 300 image, (200, 150) maps to (0, 0) and
(400, 300) maps to (200, 150). -/
theorem coordinate_mapping :
    (∀ (labelW labelH : Nat) (ex ey : Int),
      get_scaled_coords none labelW labelH ex ey = (ex, ey))
    ∧ (∀ (iw ih labelW labelH : Nat) (ex ey : Int), 0 < iw → 0 < ih →
      get_scaled_coords (some (iw, ih)) labelW labelH ex ey =
        (truncQ ((ex : ℚ) - ((labelW : ℚ) - (iw : ℚ)) / 2),
         truncQ ((ey : ℚ) - ((labelH : ℚ) - (ih : ℚ)) / 2)))
    ∧ get_scaled_coords (some (400, 300)) 800 600 200 150 = (0, 0)
    ∧ get_scaled_coords (some (400, 300)) 800 600 400 300 = (200, 150) := by
  refine ⟨fun _ _ _ _ => rfl, ?_, ?_, ?_⟩
  · intro iw ih labelW labelH ex ey hiw hih
    simp only [get_scaled_coords]
    rw [if_neg (by omega)]
  · simp only [get_scaled_coords]
    rw [if_neg (by omega)]
    norm_num [truncQ]
  · simp only [get_scaled_coords]
    rw [if_neg (by omega)]
    norm_num [truncQ]

/-- Witness for C8 at a concrete positive image size. -/
theorem coordinate_mapping_witness :
    get_scaled_coords (some (400, 300)) 800 600 500 400 =
      (truncQ ((500 : ℚ) - ((800 : ℚ) - (400 : ℚ)) / 2),
       truncQ ((400 : ℚ) - ((600 : ℚ) - (300 : ℚ)) / 2)) :=
  coordinate_mapping.2.1 400 300 800 600 500 400 (by omega) (by omega)

/-- Claim C9 (key-name normalization): on both key press and key release
the emitted key name is the table image of the keysym for every entry of
the spec key table; any keysym not in the table passes through unchanged;
and the press and release mappings are identical. -/
theorem key_name_normalization :
    (∀ p, p ∈ keyTable →
      on_key_press_name p.1 = p.2 ∧ on_key_release_name p.1 = p.2)
    ∧ (∀ s : String, s ∉ keyTable.map Prod.fst →
      on_key_press_name s = s ∧ on_key_release_name s = s)
    ∧ (∀ s : String, on_key_press_name s = on_key_release_name s) := by
  refine ⟨by decide, ?_, fun s => rfl⟩
  intro s hs
  simp only [keyTable, List.map_cons, List.map_nil, List.mem_cons,
    List.not_mem_nil, or_false, not_or] at hs
  obtain ⟨h1, h2, h3, h4, h5, h6, h7, h8, h9, h10, h11, h12, h13, h14, h15,
    h16, h17, h18, h19⟩ := hs
  constructor
  · simp only [on_key_press_name, h1, h2, h3, h4, h5, h6, h7, h8, h9, h10,
      h11, h12, h13, h14, h15, h16, h17, h18, h19, if_false]
  · simp only [on_key_release_name, h1, h2, h3, h4, h5, h6, h7, h8, h9, h10,
      h11, h12, h13, h14, h15, h16, h17, h18, h19, if_false]

/-- Witness for C9: a mapped and an unmapped keysym. -/
theorem key_name_normalization_witness :
    (on_key_press_name ("Return") = "enter" ∧ on_key_release_name ("Return") = "enter")
    ∧ (on_key_press_name ("a") = "a" ∧ on_key_release_name ("a") = "a") :=
  ⟨key_name_normalization.1 (("Return"), ("enter")) (by decide),
   key_name_normalization.2.1 ("a") (by decide)⟩

end RemoteView
